import Mathlib

/-!
Verification of `mediawiki/mediawikipage_properties.py`: a shallow embedding of
the descriptor-based MediaWiki page-property machinery (continuation walker,
result accumulator, batch planner, lazy property cache) together with theorems
settling the specification claims.

Modelling conventions:
* Python dicts are insertion-ordered association lists with unique keys
  (`Dict α`); `dictSet` overwrites in place, new keys are appended, matching
  CPython's insertion-order semantics.
* Parameter values are `PVal` (string or integer, the two value shapes the
  module stores in query-parameter dicts); JSON-ish response data is `JVal`.
* Raised Python exceptions are modelled with `Except PyErr` / `Option PyErr`.
  Constructor names follow the spec's abstract error names where it has one
  (`transport`, `missingField`, `readOnlyProperty`, `unimplementedExtraction`);
  the remaining constructors name the concrete Python exception.
-/

namespace MWProps

/-- A query-parameter value: the module stores strings (including the empty
string sentinel) and Python ints (`exsentences`, `exchars`). -/
inductive PVal where
  | str (s : String)
  | num (n : Int)
deriving DecidableEq, Repr

/-- Errors surfaced by the embedded code.  `transport` is the Requester
collaborator's failure (spec: `TransportError`); `missingField` is the
IndexError raised by `query_data['extract'][0]` on an absent field (spec:
`MissingFieldError`); `readOnlyProperty` is the AttributeError raised by
`__set__` (spec: `ReadOnlyPropertyError`); `unimplementedExtraction` is the
NotImplementedError of the abstract base (spec: `UnimplementedExtractionError`).
`keyError`, `typeError`, `attributeError` model the like-named Python
exceptions on malformed data. -/
inductive PyErr where
  | transport
  | missingField
  | readOnlyProperty
  | unimplementedExtraction
  | keyError
  | typeError
  | attributeError
deriving DecidableEq, Repr

/-- JSON-like response values. -/
inductive JVal where
  | str (s : String)
  | arr (elems : List JVal)
  | obj (fields : List (String × JVal))

/-- Insertion-ordered Python dict. -/
abbrev Dict (α : Type) := List (String × α)

/-- `d[k] = v`: overwrite in place if `k` is present, else append. -/
def dictSet {α : Type} (d : Dict α) (k : String) (v : α) : Dict α :=
  match d with
  | [] => [(k, v)]
  | (k2, v2) :: rest => if k2 = k then (k, v) :: rest else (k2, v2) :: dictSet rest k v

/-- `d.get(k)` as an option. -/
def dictGet {α : Type} (d : Dict α) (k : String) : Option α :=
  match d with
  | [] => none
  | (k2, v2) :: rest => if k2 = k then some v2 else dictGet rest k

/-- `k in d`. -/
def dictMem {α : Type} (d : Dict α) (k : String) : Bool :=
  match d with
  | [] => false
  | (k2, _) :: rest => if k2 = k then true else dictMem rest k

/-- `d.update(e)`: set every entry of `e` into `d` in iteration order. -/
def dictUpdate {α : Type} (d e : Dict α) : Dict α :=
  e.foldl (fun acc p => dictSet acc p.1 p.2) d

/-- Order-insensitive Python `==` on dicts. -/
def dictEqB {α : Type} [DecidableEq α] (d e : Dict α) : Bool :=
  d.all (fun p => dictGet e p.1 = some p.2) && e.all (fun p => dictGet d p.1 = some p.2)

/-- Query parameters: a dict of `PVal`s. -/
abbrev Params := Dict PVal

/-- `b.isPrefixOf`-style Boolean check on character lists. -/
def listPrefixB : List Char → List Char → Bool
  | [], _ => true
  | _ :: _, [] => false
  | a :: as, b :: bs => a = b && listPrefixB as bs

/-- Contiguous-substring check on character lists. -/
def listSubstrB (needle : List Char) (hay : List Char) : Bool :=
  match hay with
  | [] => listPrefixB needle []
  | _ :: t => listPrefixB needle hay || listSubstrB needle t

/-- Python `needle in hay` for strings: contiguous substring. -/
def substrB (needle hay : String) : Bool :=
  listSubstrB needle.toList hay.toList

/-- Python `'{}'.format(v)`. -/
def pvalFormat : PVal → String
  | .str s => s
  | .num n => toString n

/-- Python `new in old` on parameter values.  Defined only when `old` is a
string and `new` is a string; every other combination raises `TypeError`
(`in <string>` requires a string left operand; ints are not containers). -/
def pvalInB (new old : PVal) : Except PyErr Bool :=
  match new, old with
  | .str a, .str b => .ok (substrB a b)
  | _, _ => .error .typeError

/-- Python `old += '|{}'.format(new)` on a dict slot: string concatenation
with a pipe; an int left operand raises `TypeError`. -/
def pvalPipeAppend (old new : PVal) : Except PyErr PVal :=
  match old with
  | .str s => .ok (.str (s ++ "|" ++ pvalFormat new))
  | .num _ => .error .typeError

/-- The page entity's interface consumed by the module: `title` (absent is
Python `None`) and `pageid`. -/
structure Page where
  title : Option String
  pageid : String
deriving DecidableEq, Repr

/-- `_title_query_param`: `{'titles': title}` when the title attribute is not
`None`, else `{'pageids': pageid}`. -/
def titleQueryParam (page : Page) : Params :=
  match page.title with
  | some t => [("titles", .str t)]
  | none => [("pageids", .str page.pageid)]

/-- `get_query_params`: `query_params = self.query_params;
query_params.update(title_query_param); return query_params`.

The source takes the class-stored template *by reference* and mutates it in
place, returning the very same dict: after a call, the stored template equals
the returned value.  We model the template as explicit state; threading one
call's result into the next call's `template` argument reproduces the source's
aliasing. -/
def getQueryParams (template : Params) (page : Page) : Params :=
  dictUpdate template (titleQueryParam page)

/-- The concrete property kinds defined in the module, plus the abstract
base class. -/
inductive PropKind where
  | base
  | content
  | summary
  | images
  | references
deriving DecidableEq, Repr

/-- One `MediaWikiPageProperty` descriptor instance.  `pid` models Python
object identity (distinct instances hash differently in the planner's set even
when their fields coincide); `valHolder` is `val_holder_name`; `template` is
the class attribute `query_params` as currently stored (see
`getQueryParams`). -/
structure PropDef where
  pid : Nat
  kind : PropKind
  valHolder : String
  template : Params
deriving DecidableEq, Repr

/-- The per-page store of cached property values, keyed by
`val_holder_name`. -/
abbrev Cache := Dict JVal

/-- `__set__`: unconditionally `raise AttributeError(...)` (spec:
`ReadOnlyPropertyError`); the cache is untouched. -/
def descrSet (_p : PropDef) (cache : Cache) (_v : JVal) : Cache × Option PyErr :=
  (cache, some .readOnlyProperty)

/-- `Summary`'s inherited class template: the base class declares
`query_params = dict()` and `Summary` does not override it. -/
def summaryBaseTemplate : Params := []

/-- `Summary.get_query_params(page_instance, sentences=0, chars=0)`:
`super()` adds the identity parameter, then `prop`/`explaintext` are set, then
exactly one of `exsentences` (clamped above at 10), `exchars` (clamped below
at 1) or `exintro` is chosen by Python truthiness of `sentences` / `chars`. -/
def summaryGetQueryParams (template : Params) (page : Page)
    (sentences : Int) (chars : Int) : Params :=
  let qp := getQueryParams template page
  let qp := dictUpdate qp [("prop", .str "extracts"), ("explaintext", .str "")]
  if sentences ≠ 0 then
    dictSet qp "exsentences" (.num (if sentences > 10 then 10 else sentences))
  else if chars ≠ 0 then
    dictSet qp "exchars" (.num (if chars < 1 then 1 else chars))
  else
    dictSet qp "exintro" (.str "")

/-- `Content.query_params` as declared. -/
def contentQueryParams : Params :=
  [("prop", .str "extracts"), ("explaintext", .str "")]

/-- `Images.query_params` as declared. -/
def imagesQueryParams : Params :=
  [("generator", .str "images"), ("gimlimit", .str "max"),
   ("prop", .str "imageinfo"), ("iiprop", .str "url")]

/-- `References.query_params` as declared. -/
def referencesQueryParams : Params :=
  [("prop", .str "extlinks"), ("ellimit", .str "max")]

/-- A page entity identified by title `"Cat"` (and server pageid `"1"`). -/
def pageCat : Page := { title := some "Cat", pageid := "1" }

/-- A page entity with no title attribute, identified by pageid `"7"`. -/
def pageById : Page := { title := none, pageid := "7" }

/-- The `pages` (or designated key) substructure of a response's `query`
section: either a mapping of item id to item data (`obj`) or a plain list
(`arr`, the branch the source marks as untested). -/
inductive PagesVal where
  | obj (entries : List (String × Dict JVal))
  | arr (elems : List JVal)

/-- A Requester response: an optional `query` section (a mapping of response
keys such as `'pages'` to substructures — the code reads only
`request['query'][key]`) and an optional `continue` section. -/
structure WikiResponse where
  query : Option (Dict PagesVal)
  cont : Option Params

/-- The Requester collaborator (`page_instance.mediawiki.wiki_request`):
one round trip; may fail with a transport error. -/
abbrev Req := Params → Except PyErr WikiResponse

/-- One raw unit yielded by `_continued_query`: the generator branch and the
single-page branch yield `(key, value)` pairs; the untested list branch yields
bare values. -/
inductive Frag where
  | pair (k : PVal) (v : JVal)
  | bare (v : JVal)

/-- The per-round fragment extraction of `_continued_query`'s loop body:
generator branch (`pages.values()` paired with the generator name), list
branch (`yield datum[1]`, bare elements), else single-page branch
(`pages[page_instance.pageid].items()`; a missing pageid key raises
`KeyError`, and `.values()` on a list raises `AttributeError`). -/
def extractPageFrags (queryParams : Params) (page : Page) (pages : PagesVal) :
    Except PyErr (List Frag) :=
  match dictGet queryParams "generator" with
  | some gname =>
    match pages with
    | .obj entries => .ok (entries.map (fun e => Frag.pair gname (JVal.obj e.2)))
    | .arr _ => .error .attributeError
  | none =>
    match pages with
    | .arr elems => .ok (elems.map Frag.bare)
    | .obj entries =>
      match dictGet entries page.pageid with
      | none => .error .keyError
      | some pageProps =>
        .ok (pageProps.map (fun e => Frag.pair (.str e.1) e.2))

/-- One iteration of `_continued_query`'s `while True` loop: merge the
continuation state into a copy of the base parameters, issue one round trip,
stop on a missing `query` section, extract this round's fragments, then decide
whether to continue.  The returned `Option Params` is the continuation state
for the next iteration; `none` means the loop breaks.  Every path returns
`none`: the source ends the loop body with `last_cont = request['continue']`
followed by an unconditional `break`, so even a fresh, different continuation
section never triggers a second iteration. -/
def continuedQueryStep (req : Req) (queryParams : Params) (page : Page)
    (key : String) (lastCont : Params) :
    Except PyErr (List Frag × Option Params) :=
  let params := dictUpdate queryParams lastCont
  match req params with
  | .error e => .error e
  | .ok resp =>
    match resp.query with
    | none => .ok ([], none)
    | some q =>
      match dictGet q key with
      | none => .error .keyError
      | some pages =>
        match extractPageFrags queryParams page pages with
        | .error e => .error e
        | .ok frags =>
          match resp.cont with
          | none => .ok (frags, none)
          | some c =>
            if dictEqB c lastCont then .ok (frags, none)
            else .ok (frags, none)

/-- Fuelled driver of the `while True` loop, also counting Requester round
trips.  The fuel is irrelevant in fact (`continuedQueryStep` never asks for
another iteration), but the driver is written for the general loop shape. -/
def continuedQueryAuxC (req : Req) (queryParams : Params) (page : Page)
    (key : String) : Nat → Params → Except PyErr (List Frag) × Nat
  | 0, _ => (.ok [], 0)
  | fuel + 1, lastCont =>
    match continuedQueryStep req queryParams page key lastCont with
    | .error e => (.error e, 1)
    | .ok (frags, none) => (.ok frags, 1)
    | .ok (frags, some c) =>
      match continuedQueryAuxC req queryParams page key fuel c with
      | (.error e, n) => (.error e, n + 1)
      | (.ok rest, n) => (.ok (frags ++ rest), n + 1)

/-- `_continued_query` with an instrumented Requester-call count, starting
from the empty continuation state. -/
def continuedQueryC (req : Req) (queryParams : Params) (page : Page)
    (key : String) : Except PyErr (List Frag) × Nat :=
  continuedQueryAuxC req queryParams page key 1000 []

/-- `_continued_query(query_params, page_instance, key='pages')`: the list of
fragments the walk yields to its consumer (a transport error reaches the
consumer in place of further fragments, discarding the iteration). -/
def continuedQuery (req : Req) (queryParams : Params) (page : Page)
    (key : String) : Except PyErr (List Frag) :=
  (continuedQueryC req queryParams page key).1

/-- The Result Accumulator's output: the `defaultdict(list)` built by
`_parse_continued_query`, mapping a fragment key to the ordered accumulated
values. -/
abbrev QueryData := List (PVal × List JVal)

/-- `query_data[k]` under `defaultdict(list)` semantics: an absent key reads
as the empty list. -/
def qdLookupD (qd : QueryData) (k : PVal) : List JVal :=
  match qd with
  | [] => []
  | (k2, l) :: rest => if k2 = k then l else qdLookupD rest k

/-- Append `elems` to `query_data[k]`, creating the slot (at the end, in
insertion order) when absent — `defaultdict` access followed by `+=`. -/
def qdAdd (qd : QueryData) (k : PVal) (elems : List JVal) : QueryData :=
  match qd with
  | [] => [(k, elems)]
  | (k2, l) :: rest =>
    if k2 = k then (k2, l ++ elems) :: rest else (k2, l) :: qdAdd rest k elems

/-- `isinstance(q_prop_val, list)` dispatch of the accumulator: a list value
is extended element-wise, any other value is appended as a single element. -/
def flatElems : JVal → List JVal
  | .arr l => l
  | v => [v]

/-- One accumulator step: `query_data[q_prop] += q_prop_val` for lists,
`query_data[q_prop].append(q_prop_val)` otherwise. -/
def qdAddVal (qd : QueryData) (k : PVal) (v : JVal) : QueryData :=
  qdAdd qd k (flatElems v)

/-- The loop of `_parse_continued_query` over the fragment iterator.  Pair
fragments are accumulated directly.  A bare fragment (possible only through
the source's untested list branch) is tuple-unpacked by the `for` statement:
a two-element array whose first element is a string unpacks to a usable
`(key, value)`; the remaining shapes fail (the spec declares this branch's
behaviour undefined), modelled as `TypeError`. -/
def parseContinuedQueryAux : List Frag → QueryData → Except PyErr QueryData
  | [], qd => .ok qd
  | .pair k v :: rest, qd => parseContinuedQueryAux rest (qdAddVal qd k v)
  | .bare (JVal.arr [JVal.str k, v]) :: rest, qd =>
    parseContinuedQueryAux rest (qdAddVal qd (.str k) v)
  | .bare _ :: _, _ => .error .typeError

/-- `_parse_continued_query`: group the walker's fragments into a fresh
`defaultdict(list)`. -/
def parseContinuedQuery (frags : List Frag) : Except PyErr QueryData :=
  parseContinuedQueryAux frags []

/-- Stable insertion into a sorted list of strings (helper for Python
`sorted`). -/
def insertSorted (x : String) : List String → List String
  | [] => [x]
  | y :: ys => if x < y then x :: y :: ys else y :: insertSorted x ys

/-- Python `sorted` on a list of strings (lexicographic, duplicates kept). -/
def sortedStrings : List String → List String
  | [] => []
  | x :: xs => insertSorted x (sortedStrings xs)

/-- `References.parse_query_data`'s collection loop: `extlink['*']` for every
accumulated item; a non-object item or a missing `'*'` key fails as in
Python, and a non-string link value cannot be `sorted` against strings. -/
def referencesCollect : List JVal → Except PyErr (List String)
  | [] => .ok []
  | .obj fields :: rest =>
    match dictGet fields "*" with
    | some (.str u) =>
      match referencesCollect rest with
      | .error e => .error e
      | .ok us => .ok (u :: us)
    | some _ => .error .typeError
    | none => .error .keyError
  | _ :: _ => .error .typeError

/-- `References.parse_query_data`: collect `extlink['*']` over
`query_data['extlinks']` and return the sorted list. -/
def referencesParseQueryData (qd : QueryData) : Except PyErr JVal :=
  match referencesCollect (qdLookupD qd (.str "extlinks")) with
  | .error e => .error e
  | .ok us => .ok (.arr ((sortedStrings us).map .str))

/-- `Images.parse_query_data`'s filter: keep `page['imageinfo'][0]['url']`
when `'imageinfo' in page and 'url' in page['imageinfo'][0]`; indexing an
empty `imageinfo` list raises `IndexError` (modelled by `missingField`), and
shapes on which the subscripts fail raise as in Python. -/
def imagesCollect : List JVal → Except PyErr (List String)
  | [] => .ok []
  | .obj fields :: rest =>
    match dictGet fields "imageinfo" with
    | none =>
      imagesCollect rest
    | some (.arr []) => .error .missingField
    | some (.arr (.obj ff :: _)) =>
      match dictGet ff "url" with
      | some (.str u) =>
        match imagesCollect rest with
        | .error e => .error e
        | .ok us => .ok (u :: us)
      | some _ => .error .typeError
      | none => imagesCollect rest
    | some _ => .error .typeError
  | _ :: _ => .error .typeError

/-- `Images.parse_query_data`: URLs of accumulated `query_data['images']`
items, sorted. -/
def imagesParseQueryData (qd : QueryData) : Except PyErr JVal :=
  match imagesCollect (qdLookupD qd (.str "images")) with
  | .error e => .error e
  | .ok us => .ok (.arr ((sortedStrings us).map .str))

/-- `parse_query_data` dispatched per concrete class.  `Content` and
`Summary` both return `query_data['extract'][0]`: under `defaultdict(list)`
an absent `'extract'` reads as `[]` and the `[0]` subscript raises (spec:
`MissingFieldError`).  The abstract base raises `NotImplementedError`. -/
def parseQueryData : PropKind → QueryData → Except PyErr JVal
  | .base, _ => .error .unimplementedExtraction
  | .content, qd =>
    match qdLookupD qd (.str "extract") with
    | [] => .error .missingField
    | v :: _ => .ok v
  | .summary, qd =>
    match qdLookupD qd (.str "extract") with
    | [] => .error .missingField
    | v :: _ => .ok v
  | .references, qd => referencesParseQueryData qd
  | .images, qd => imagesParseQueryData qd

/-- `__get__` on an instance: return the stored value if the holder attribute
exists, else fetch (walk, accumulate, extract), store and return.  The third
component counts Requester round trips performed by the call. -/
def descrGet (p : PropDef) (req : Req) (page : Page) (cache : Cache) :
    Except PyErr (JVal × Cache × Nat) :=
  match dictGet cache p.valHolder with
  | some v => .ok (v, cache, 0)
  | none =>
    match continuedQueryC req (getQueryParams p.template page) page "pages" with
    | (.error e, _) => .error e
    | (.ok frags, n) =>
      match parseContinuedQuery frags with
      | .error e => .error e
      | .ok qd =>
        match parseQueryData p.kind qd with
        | .error e => .error e
        | .ok v => .ok (v, dictSet cache p.valHolder v, n)

/-- `_check_for_prop_conflict(new_query_params, collected_query_params)`:
iterate the new parameters; report a conflict as soon as a parameter name is
already collected *and* the new value occurs (Python `in`, i.e. substring
containment) in the collected value. -/
def checkForPropConflict : List (String × PVal) → Params → Except PyErr Bool
  | [], _ => .ok false
  | (k, v) :: rest, collected =>
    match dictGet collected k with
    | none => checkForPropConflict rest collected
    | some cv =>
      match pvalInB v cv with
      | .error e => .error e
      | .ok true => .ok true
      | .ok false => checkForPropConflict rest collected

/-- `main_query_properties.add(p)`: Python set insertion, modelled on lists
ordered by first insertion (`pid` models instance identity). -/
def setAdd (l : List PropDef) (p : PropDef) : List PropDef :=
  if p ∈ l then l else l ++ [p]

/-- The merge loop of `combine_query_params`: each parameter of the property
is set into the main parameters when new, or pipe-concatenated onto the
existing value when present; the property is added to the main property set
once per parameter (so a property with an empty parameter dict is never
added). -/
def mergeQueryParams (p : PropDef) :
    List (String × PVal) → Params → List PropDef →
    Except PyErr (Params × List PropDef)
  | [], mp, mprops => .ok (mp, mprops)
  | (k, v) :: rest, mp, mprops =>
    match dictGet mp k with
    | some old =>
      match pvalPipeAppend old v with
      | .error e => .error e
      | .ok nv => mergeQueryParams p rest (dictSet mp k nv) (setAdd mprops p)
    | none => mergeQueryParams p rest (dictSet mp k v) (setAdd mprops p)

/-- A Query Group: merged parameters plus the properties assigned to the
group (Python keeps a `set`; the list records insertion order). -/
abbrev QueryGroup := Params × List PropDef

/-- The property loop of `combine_query_params`, carrying the main group's
parameters and property set and the dedicated groups appended so far.
A generator-bearing property always opens a dedicated singleton group; a
conflicting property likewise; otherwise the property is merged into the main
group. -/
def combineQueryParamsAux (page : Page) :
    List PropDef → Params → List PropDef → List QueryGroup →
    Except PyErr (Params × List PropDef × List QueryGroup)
  | [], mp, mprops, ded => .ok (mp, mprops, ded)
  | p :: rest, mp, mprops, ded =>
    let qp := getQueryParams p.template page
    if dictMem qp "generator" then
      combineQueryParamsAux page rest mp mprops (ded ++ [(qp, [p])])
    else
      match checkForPropConflict qp mp with
      | .error e => .error e
      | .ok true => combineQueryParamsAux page rest mp mprops (ded ++ [(qp, [p])])
      | .ok false =>
        match mergeQueryParams p qp mp mprops with
        | .error e => .error e
        | .ok (mp2, mprops2) => combineQueryParamsAux page rest mp2 mprops2 ded

/-- `combine_query_params(mediawiki_page_properties, page_instance)`: the
main group (first, even when empty) followed by the dedicated groups in the
order their triggering property was processed. -/
def combineQueryParams (props : List PropDef) (page : Page) :
    Except PyErr (List QueryGroup) :=
  match combineQueryParamsAux page props [] [] [] with
  | .error e => .error e
  | .ok (mp, mprops, ded) => .ok ((mp, mprops) :: ded)

/-- The property loop at the end of each group of `get_batch_properties`:
extract each property's value from the group's accumulated data and store it
under the property's holder name.  An extraction failure propagates after the
earlier properties of the group have already been stored. -/
def setGroupProps (qd : QueryData) :
    List PropDef → Cache → Cache × Option PyErr
  | [], cache => (cache, none)
  | p :: rest, cache =>
    match parseQueryData p.kind qd with
    | .error e => (cache, some e)
    | .ok v => setGroupProps qd rest (dictSet cache p.valHolder v)

/-- One group of `get_batch_properties`: walk the group's parameters,
accumulate, then store every group property's extracted value.  A failure in
the walk leaves the cache untouched for this group. -/
def processGroup (req : Req) (page : Page) (g : QueryGroup) (cache : Cache) :
    Cache × Option PyErr :=
  match continuedQuery req g.1 page "pages" with
  | .error e => (cache, some e)
  | .ok frags =>
    match parseContinuedQuery frags with
    | .error e => (cache, some e)
    | .ok qd => setGroupProps qd g.2 cache

/-- The group loop of `get_batch_properties`: groups are processed in order;
the first failure propagates, keeping every value stored so far. -/
def processGroups (req : Req) (page : Page) :
    List QueryGroup → Cache → Cache × Option PyErr
  | [], cache => (cache, none)
  | g :: rest, cache =>
    match processGroup req page g cache with
    | (cache2, none) => processGroups req page rest cache2
    | (cache2, some e) => (cache2, some e)

/-- `get_batch_properties(mediawiki_page_properties, page_instance)`: plan
the groups, then process them sequentially against the page's cache. -/
def getBatchProperties (req : Req) (props : List PropDef) (page : Page)
    (cache : Cache) : Cache × Option PyErr :=
  match combineQueryParams props page with
  | .error e => (cache, some e)
  | .ok groups => processGroups req page groups cache

/-- The concrete `Content` descriptor instance. -/
def contentProp : PropDef :=
  { pid := 0, kind := .content, valHolder := "_content",
    template := contentQueryParams }

/-- The concrete `References` descriptor instance. -/
def referencesProp : PropDef :=
  { pid := 1, kind := .references, valHolder := "_references",
    template := referencesQueryParams }

/-- The concrete `Images` descriptor instance. -/
def imagesProp : PropDef :=
  { pid := 2, kind := .images, valHolder := "_images",
    template := imagesQueryParams }

/-- Synthetic Requester for the continuation claim: the first round returns
one `extract` fragment and a fresh, non-empty continuation section; a request
carrying that continuation returns a second `extract` fragment and no
continuation. -/
def twoRoundReq : Req := fun params =>
  if dictMem params "excontinue" then
    .ok { query := some [("pages", .obj [("1", [("extract", JVal.str "B")])])],
          cont := none }
  else
    .ok { query := some [("pages", .obj [("1", [("extract", JVal.str "A")])])],
          cont := some [("excontinue", .str "1")] }

/-- C1: the claim says a response whose continuation section is present and
different from the previous round's makes the walker issue another request,
so the walk over `twoRoundReq` should emit the fragments of both rounds.  The
code instead ends every loop iteration with an unconditional `break` (right
after `last_cont = request['continue']`), so the walk performs exactly one
round trip and emits only round 1's fragment. -/
theorem continued_query_stops_after_first_round :
    continuedQuery twoRoundReq [("prop", PVal.str "extracts")] pageCat "pages" =
      .ok [Frag.pair (.str "extract") (.str "A")] ∧
    [Frag.pair (PVal.str "extract") (JVal.str "A")] ≠
      [Frag.pair (.str "extract") (.str "A"), Frag.pair (.str "extract") (.str "B")] := by
  refine ⟨rfl, fun h => ?_⟩
  simpa using congrArg List.length h

/-- A property whose declared template is `{'inprop': 'url'}` (disjoint keys
from `exlimitProp`'s template). -/
def inpropProp : PropDef :=
  { pid := 3, kind := .base, valHolder := "_inprop",
    template := [("inprop", .str "url")] }

/-- A property whose declared template is `{'exlimit': 'max'}`. -/
def exlimitProp : PropDef :=
  { pid := 4, kind := .base, valHolder := "_exlimit",
    template := [("exlimit", .str "max")] }

/-- C2: two non-generator properties whose only shared parameter is the
identity parameter `titles='Cat'` with equal values on both sides — by the
claim's merge rule (equal shared values deduplicate) they belong to a single
group.  The code's conflict test fires exactly when the new value occurs as a
substring of the collected value, so the equal `titles` values count as a
conflict and the planner returns two groups, each holding one property. -/
theorem combine_query_params_splits_equal_values :
    combineQueryParams [inpropProp, exlimitProp] pageCat =
      .ok [([("inprop", .str "url"), ("titles", .str "Cat")], [inpropProp]),
           ([("exlimit", .str "max"), ("titles", .str "Cat")], [exlimitProp])] := rfl

/-- C3: `get_query_params` updates the class-stored template in place rather
than copying it, so after computing the parameters for `pageCat` (title
`"Cat"`), the parameters computed for `pageById` (no title, pageid `"7"`)
still contain the first entity's identity parameter `titles='Cat'` alongside
`pageids='7'` — refuting the claim that the declared template is left
unchanged. -/
theorem get_query_params_mutates_template :
    dictGet (getQueryParams (getQueryParams contentQueryParams pageCat) pageById)
        "titles" = some (.str "Cat") ∧
    dictGet (getQueryParams (getQueryParams contentQueryParams pageCat) pageById)
        "pageids" = some (.str "7") := by
  exact ⟨rfl, rfl⟩

/-- C7: every direct assignment into a page entity's property slot raises
`ReadOnlyPropertyError` (the source's unconditional `AttributeError`),
whether or not a value is already cached, and leaves the cached state
unchanged. -/
theorem descriptor_set_read_only (p : PropDef) (cache : Cache) (v : JVal) :
    descrSet p cache v = (cache, some PyErr.readOnlyProperty) := rfl

/-- C10: when `Summary.get_query_params` receives a positive sentence count
and a positive character count, the sentence bound wins: the result holds the
clamped `exsentences parameter`, no `exchars` parameter, and no `exintro`
parameter. -/
theorem summary_sentences_precedence (page : Page) (sentences chars : Int)
    (hs : 0 < sentences) (_hc : 0 < chars) :
    dictGet (summaryGetQueryParams summaryBaseTemplate page sentences chars)
        "exsentences" = some (.num (if sentences > 10 then 10 else sentences)) ∧
    dictGet (summaryGetQueryParams summaryBaseTemplate page sentences chars)
        "exchars" = none ∧
    dictGet (summaryGetQueryParams summaryBaseTemplate page sentences chars)
        "exintro" = none := by
  have hs2 : sentences ≠ 0 := by omega
  rcases page with ⟨t, pid⟩
  cases t <;>
    simp [summaryGetQueryParams, summaryBaseTemplate, getQueryParams,
      titleQueryParam, dictUpdate, dictSet, dictGet, hs2]

/-- Witness for C10 at `sentences = 3`, `chars = 5` on `pageCat`. -/
theorem summary_sentences_precedence_witness :
    dictGet (summaryGetQueryParams summaryBaseTemplate pageCat 3 5)
        "exsentences" = some (.num 3) ∧
    dictGet (summaryGetQueryParams summaryBaseTemplate pageCat 3 5)
        "exchars" = none ∧
    dictGet (summaryGetQueryParams summaryBaseTemplate pageCat 3 5)
        "exintro" = none := by
  simpa using summary_sentences_precedence pageCat 3 5 (by norm_num) (by norm_num)

/-- Accumulating under a key appends to that key's slot. -/
theorem qdLookupD_qdAdd_self (qd : QueryData) (k : PVal) (elems : List JVal) :
    qdLookupD (qdAdd qd k elems) k = qdLookupD qd k ++ elems := by
  induction qd with
  | nil => simp [qdAdd, qdLookupD]
  | cons e rest ih =>
    rcases e with ⟨k2, l⟩
    by_cases h : k2 = k
    · simp [qdAdd, qdLookupD, h]
    · simp [qdAdd, qdLookupD, h, ih]

/-- Accumulating under a key leaves other keys' slots unchanged. -/
theorem qdLookupD_qdAdd_ne (qd : QueryData) (k k2 : PVal) (elems : List JVal)
    (hne : k ≠ k2) : qdLookupD (qdAdd qd k elems) k2 = qdLookupD qd k2 := by
  induction qd with
  | nil => simp [qdAdd, qdLookupD, hne]
  | cons e rest ih =>
    rcases e with ⟨k3, l⟩
    by_cases h : k3 = k
    · subst h
      simp [qdAdd, qdLookupD, hne]
    · simp [qdAdd, qdLookupD, h, ih]

/-- The accumulated slot of a key after folding a list of pair fragments:
the old slot followed by the flattened values observed for that key, in
arrival order. -/
theorem qdLookupD_foldl_qdAddVal (k : PVal) :
    ∀ (frags : List (PVal × JVal)) (qd0 : QueryData),
      qdLookupD (frags.foldl (fun qd f => qdAddVal qd f.1 f.2) qd0) k =
        qdLookupD qd0 k ++
          ((frags.filter (fun f => f.1 = k)).map (fun f => flatElems f.2)).flatten := by
  intro frags
  induction frags with
  | nil => intro qd0; simp
  | cons f rest ih =>
    intro qd0
    rcases f with ⟨fk, fv⟩
    rw [List.foldl_cons, ih]
    by_cases h : fk = k
    · subst h
      rw [qdAddVal, qdLookupD_qdAdd_self]
      simp [List.filter_cons, List.append_assoc]
    · rw [qdAddVal, qdLookupD_qdAdd_ne _ _ _ _ h]
      simp [List.filter_cons, h]

/-- On pair fragments the accumulator never fails and equals the fold of
single accumulation steps. -/
theorem parseContinuedQueryAux_pairs :
    ∀ (frags : List (PVal × JVal)) (qd0 : QueryData),
      parseContinuedQueryAux (frags.map (fun f => Frag.pair f.1 f.2)) qd0 =
        .ok (frags.foldl (fun qd f => qdAddVal qd f.1 f.2) qd0) := by
  intro frags
  induction frags with
  | nil => intro qd0; rfl
  | cons f rest ih =>
    intro qd0
    simp only [List.map_cons, List.foldl_cons, parseContinuedQueryAux, ih]

/-- C8: for every sequence of pair fragments, the Result Accumulator maps
each field key to the ordered sequence of all values observed for it, in
arrival order, flattening list-valued fragments element-wise and appending
scalar fragments as single elements. -/
theorem accumulator_flattening (frags : List (PVal × JVal)) (k : PVal)
    (qd : QueryData)
    (h : parseContinuedQuery (frags.map (fun f => Frag.pair f.1 f.2)) = .ok qd) :
    qdLookupD qd k =
      ((frags.filter (fun f => f.1 = k)).map (fun f => flatElems f.2)).flatten := by
  unfold parseContinuedQuery at h
  rw [parseContinuedQueryAux_pairs] at h
  obtain rfl : (frags.foldl (fun qd f => qdAddVal qd f.1 f.2) []) = qd := by
    injection h
  simpa using qdLookupD_foldl_qdAddVal k frags []

/-- Witness for C8 at the claim's example: fragments
`[("x", ["a","b"]), ("x", "c")]` accumulate to `["a","b","c"]` under `"x"`. -/
theorem accumulator_flattening_witness :
    qdLookupD [(PVal.str "x", [JVal.str "a", JVal.str "b", JVal.str "c"])]
      (PVal.str "x") = [JVal.str "a", JVal.str "b", JVal.str "c"] :=
  (accumulator_flattening
    [(PVal.str "x", JVal.arr [JVal.str "a", JVal.str "b"]),
     (PVal.str "x", JVal.str "c")]
    (PVal.str "x")
    [(PVal.str "x", [JVal.str "a", JVal.str "b", JVal.str "c"])] rfl).trans rfl

/-- C9: the plain-text extraction returns the first element of the
accumulated sequence under `"extract"`; an accumulated mapping with no entry
under that key makes it fail with `MissingFieldError` (the `[0]` subscript on
the `defaultdict`'s empty list), and through `__get__` that failure
propagates to the caller of the property read. -/
theorem content_extraction_first_or_missing :
    (∀ (qd : QueryData) (v : JVal) (rest : List JVal),
       qdLookupD qd (.str "extract") = v :: rest →
       parseQueryData .content qd = .ok v) ∧
    (∀ qd : QueryData, qdLookupD qd (.str "extract") = [] →
       parseQueryData .content qd = .error .missingField) ∧
    (∀ (p : PropDef) (req : Req) (page : Page) (cache : Cache)
       (frags : List Frag) (qd : QueryData),
       p.kind = .content →
       dictGet cache p.valHolder = none →
       continuedQuery req (getQueryParams p.template page) page "pages" = .ok frags →
       parseContinuedQuery frags = .ok qd →
       qdLookupD qd (.str "extract") = [] →
       descrGet p req page cache = .error .missingField) := by
  refine ⟨?_, ?_, ?_⟩
  · intro qd v rest h
    simp [parseQueryData, h]
  · intro qd h
    simp [parseQueryData, h]
  · intro p req page cache frags qd hk hmiss hwalk hacc hlook
    unfold continuedQuery at hwalk
    unfold descrGet
    rw [hmiss]
    rcases hcq : continuedQueryC req (getQueryParams p.template page) page "pages"
      with ⟨r, n⟩
    rw [hcq] at hwalk
    simp only at hwalk
    subst hwalk
    simp only [hacc, hk, parseQueryData, hlook]

/-- A Requester returning a single round with no `extract` field. -/
def noExtractReq : Req := fun _ =>
  .ok { query := some [("pages", PagesVal.obj [("1", [("pageimage", JVal.str "x")])])],
        cont := none }

/-- Witness for C9: a present `extract` yields its first element; an absent
one fails with `MissingFieldError`, also through a full property read. -/
theorem content_extraction_witness :
    parseQueryData .content [(.str "extract", [JVal.str "T"])] = .ok (JVal.str "T") ∧
    parseQueryData .content [] = .error .missingField ∧
    descrGet contentProp noExtractReq pageCat [] = .error .missingField :=
  ⟨content_extraction_first_or_missing.1 _ _ _ rfl,
   content_extraction_first_or_missing.2.1 _ rfl,
   content_extraction_first_or_missing.2.2 contentProp noExtractReq pageCat []
     [Frag.pair (.str "pageimage") (.str "x")] [(.str "pageimage", [JVal.str "x"])]
     rfl rfl rfl rfl rfl⟩

/-- Every iteration of the walker's loop body breaks: the source's
unconditional `break` after `last_cont = request['continue']` means the step
never asks for another round. -/
theorem continuedQueryStep_no_cont (req : Req) (qp : Params) (page : Page)
    (key : String) (lastCont : Params) (frags : List Frag) (c : Params) :
    continuedQueryStep req qp page key lastCont ≠ .ok (frags, some c) := by
  simp only [continuedQueryStep]
  repeat' split
  all_goals simp

/-- The walk performs exactly one Requester round trip. -/
theorem continuedQueryC_count (req : Req) (qp : Params) (page : Page)
    (key : String) : (continuedQueryC req qp page key).2 = 1 := by
  show (continuedQueryAuxC req qp page key (999 + 1) []).2 = 1
  cases h : continuedQueryStep req qp page key [] with
  | error e => simp [continuedQueryAuxC, h]
  | ok fo =>
    rcases fo with ⟨frags, oc⟩
    cases oc with
    | none => simp [continuedQueryAuxC, h]
    | some c => exact absurd h (continuedQueryStep_no_cont req qp page key [] frags c)

/-- Looking up a freshly set key returns the set value. -/
theorem dictGet_dictSet_self {α : Type} (d : Dict α) (k : String) (v : α) :
    dictGet (dictSet d k v) k = some v := by
  induction d with
  | nil => simp [dictSet, dictGet]
  | cons e rest ih =>
    rcases e with ⟨k2, v2⟩
    by_cases h : k2 = k <;> simp [dictSet, dictGet, h, ih]

/-- C5: reading the same property twice on one page entity triggers the
Requester at most once in total; the first read stores the computed value and
the second read returns the identical stored value and the same cache with
no further Requester calls. -/
theorem property_read_idempotent_cache (p : PropDef) (req : Req) (page : Page)
    (cache : Cache) (v1 : JVal) (c1 : Cache) (n1 : Nat) (v2 : JVal) (c2 : Cache)
    (n2 : Nat)
    (h1 : descrGet p req page cache = .ok (v1, c1, n1))
    (h2 : descrGet p req page c1 = .ok (v2, c2, n2)) :
    n1 + n2 ≤ 1 ∧ v2 = v1 ∧ c2 = c1 := by
  cases hc : dictGet cache p.valHolder with
  | some v =>
    unfold descrGet at h1
    rw [hc] at h1
    simp only [Except.ok.injEq, Prod.mk.injEq] at h1
    obtain ⟨hv1, hc1, hn1⟩ := h1
    subst hv1; subst hc1; subst hn1
    unfold descrGet at h2
    rw [hc] at h2
    simp only [Except.ok.injEq, Prod.mk.injEq] at h2
    obtain ⟨hv2, hc2, hn2⟩ := h2
    subst hv2; subst hc2; subst hn2
    exact ⟨by omega, rfl, rfl⟩
  | none =>
    unfold descrGet at h1
    rw [hc] at h1
    rcases hcq : continuedQueryC req (getQueryParams p.template page) page "pages"
      with ⟨r, n⟩
    rw [hcq] at h1
    cases r with
    | error e => simp at h1
    | ok frags =>
      dsimp only at h1
      cases hpq : parseContinuedQuery frags with
      | error e => rw [hpq] at h1; simp at h1
      | ok qd =>
        rw [hpq] at h1
        dsimp only at h1
        cases hpd : parseQueryData p.kind qd with
        | error e => rw [hpd] at h1; simp at h1
        | ok v =>
          rw [hpd] at h1
          simp only [Except.ok.injEq, Prod.mk.injEq] at h1
          obtain ⟨hv1, hc1, hn1⟩ := h1
          subst hv1; subst hc1
          have hn : n = 1 := by
            have := continuedQueryC_count req (getQueryParams p.template page)
              page "pages"
            rw [hcq] at this
            exact this
          unfold descrGet at h2
          rw [dictGet_dictSet_self] at h2
          simp only [Except.ok.injEq, Prod.mk.injEq] at h2
          obtain ⟨hv2, hc2, hn2⟩ := h2
          subst hv2; subst hc2; subst hn2
          refine ⟨by omega, rfl, rfl⟩

/-- Witness for C5: reading `Content` twice over `twoRoundReq` starting from
an empty cache makes exactly one round trip and returns identical values. -/
theorem property_read_idempotent_cache_witness :
    (1 : Nat) + 0 ≤ 1 ∧ JVal.str "A" = JVal.str "A" ∧
      ([("_content", JVal.str "A")] : Cache) = [("_content", JVal.str "A")] :=
  property_read_idempotent_cache contentProp twoRoundReq pageCat []
    (JVal.str "A") [("_content", JVal.str "A")] 1
    (JVal.str "A") [("_content", JVal.str "A")] 0 rfl rfl

/-- `setAdd` introduces no property other than the added one. -/
theorem setAdd_mem {l : List PropDef} {p q : PropDef} (h : q ∈ setAdd l p) :
    q ∈ l ∨ q = p := by
  unfold setAdd at h
  split at h
  · exact Or.inl h
  · rcases List.mem_append.mp h with h2 | h2
    · exact Or.inl h2
    · exact Or.inr (List.mem_singleton.mp h2)

/-- The merge loop adds only the merged property to the main property set. -/
theorem mergeQueryParams_mem {p : PropDef} :
    ∀ (l : List (String × PVal)) (mp : Params) (mprops : List PropDef)
      (mp2 : Params) (mprops2 : List PropDef),
      mergeQueryParams p l mp mprops = .ok (mp2, mprops2) →
      ∀ q ∈ mprops2, q ∈ mprops ∨ q = p := by
  intro l
  induction l with
  | nil =>
    intro mp mprops mp2 mprops2 h q hq
    simp only [mergeQueryParams, Except.ok.injEq, Prod.mk.injEq] at h
    obtain ⟨h1, h2⟩ := h
    subst h2
    exact Or.inl hq
  | cons kv rest ih =>
    intro mp mprops mp2 mprops2 h q hq
    rcases kv with ⟨k, v⟩
    simp only [mergeQueryParams] at h
    cases hd : dictGet mp k with
    | some old =>
      rw [hd] at h
      dsimp only at h
      cases hp : pvalPipeAppend old v with
      | error e => rw [hp] at h; simp at h
      | ok nv =>
        rw [hp] at h
        dsimp only at h
        rcases ih _ _ _ _ h q hq with h2 | h2
        · rcases setAdd_mem h2 with h3 | h3
          · exact Or.inl h3
          · exact Or.inr h3
        · exact Or.inr h2
    | none =>
      rw [hd] at h
      dsimp only at h
      rcases ih _ _ _ _ h q hq with h2 | h2
      · rcases setAdd_mem h2 with h3 | h3
        · exact Or.inl h3
        · exact Or.inr h3
      · exact Or.inr h2

/-- Invariant of the planner's property loop: the main group's set stays free
of generator-bearing properties, and every dedicated group holding a
generator-bearing property is that property's singleton. -/
theorem combineAux_generator_isolation (page : Page) :
    ∀ (props : List PropDef) (mp : Params) (mprops : List PropDef)
      (ded : List QueryGroup) (mp2 : Params) (mprops2 : List PropDef)
      (ded2 : List QueryGroup),
      combineQueryParamsAux page props mp mprops ded = .ok (mp2, mprops2, ded2) →
      (∀ p ∈ mprops, dictMem (getQueryParams p.template page) "generator" = false) →
      (∀ g ∈ ded, ∀ p ∈ g.2,
        dictMem (getQueryParams p.template page) "generator" = true → g.2 = [p]) →
      (∀ p ∈ mprops2, dictMem (getQueryParams p.template page) "generator" = false) ∧
      (∀ g ∈ ded2, ∀ p ∈ g.2,
        dictMem (getQueryParams p.template page) "generator" = true → g.2 = [p]) := by
  intro props
  induction props with
  | nil =>
    intro mp mprops ded mp2 mprops2 ded2 h hmain hded
    simp only [combineQueryParamsAux, Except.ok.injEq, Prod.mk.injEq] at h
    obtain ⟨h1, h2, h3⟩ := h
    subst h2; subst h3
    exact ⟨hmain, hded⟩
  | cons p rest ih =>
    intro mp mprops ded mp2 mprops2 ded2 h hmain hded
    have hsingleton : ∀ (qp : Params),
        ∀ g ∈ ded ++ [(qp, [p])], ∀ q ∈ g.2,
          dictMem (getQueryParams q.template page) "generator" = true → g.2 = [q] := by
      intro qp g hg q hq hgen
      rcases List.mem_append.mp hg with h2 | h2
      · exact hded g h2 q hq hgen
      · have hge := List.mem_singleton.mp h2
        subst hge
        have hqp : q = p := List.mem_singleton.mp hq
        subst hqp
        rfl
    simp only [combineQueryParamsAux] at h
    by_cases hg : dictMem (getQueryParams p.template page) "generator" = true
    · rw [if_pos hg] at h
      exact ih _ _ _ _ _ _ h hmain (hsingleton _)
    · rw [if_neg hg] at h
      cases hcf : checkForPropConflict (getQueryParams p.template page) mp with
      | error e => rw [hcf] at h; simp at h
      | ok b =>
        cases b with
        | true =>
          rw [hcf] at h
          dsimp only at h
          exact ih _ _ _ _ _ _ h hmain (hsingleton _)
        | false =>
          rw [hcf] at h
          dsimp only at h
          cases hm : mergeQueryParams p (getQueryParams p.template page) mp mprops with
          | error e => rw [hm] at h; simp at h
          | ok mm =>
            rcases mm with ⟨mp3, mprops3⟩
            rw [hm] at h
            dsimp only at h
            refine ih _ _ _ _ _ _ h ?_ hded
            intro q hq
            rcases mergeQueryParams_mem _ _ _ _ _ hm q hq with h2 | h2
            · exact hmain q h2
            · rw [h2]
              exact Bool.not_eq_true _ ▸ (by simpa using hg)

/-- C6: every generator-bearing property ends up in a dedicated Query Group
containing only itself; no produced group pairs a generator-bearing property
with any other property, regardless of parameter overlap. -/
theorem generator_isolated_in_combine (props : List PropDef) (page : Page)
    (groups : List QueryGroup) (hc : combineQueryParams props page = .ok groups)
    (g : QueryGroup) (hg : g ∈ groups) (p : PropDef) (hp : p ∈ g.2)
    (hgen : dictMem (getQueryParams p.template page) "generator" = true) :
    g.2 = [p] := by
  unfold combineQueryParams at hc
  cases haux : combineQueryParamsAux page props [] [] [] with
  | error e => rw [haux] at hc; simp at hc
  | ok res =>
    rcases res with ⟨mp2, mprops2, ded2⟩
    rw [haux] at hc
    simp only [Except.ok.injEq] at hc
    subst hc
    have hinv := combineAux_generator_isolation page props [] [] [] mp2 mprops2 ded2
      haux (by simp) (by simp)
    rcases List.mem_cons.mp hg with h2 | h2
    · subst h2
      exact absurd hgen (by simp [hinv.1 p hp])
    · exact hinv.2 g h2 p hp hgen

/-- The dedicated group the planner creates for `imagesProp` on `pageCat`. -/
def imagesGroupCat : QueryGroup :=
  ([("generator", .str "images"), ("gimlimit", .str "max"),
    ("prop", .str "imageinfo"), ("iiprop", .str "url"), ("titles", .str "Cat")],
   [imagesProp])

/-- Witness for C6: planning `Images` together with `Content` leaves the
generator-bearing `Images` alone in its dedicated group. -/
theorem generator_isolated_in_combine_witness : imagesGroupCat.2 = [imagesProp] :=
  generator_isolated_in_combine [imagesProp, contentProp] pageCat
    [([("prop", .str "extracts"), ("explaintext", .str ""), ("titles", .str "Cat")],
      [contentProp]), imagesGroupCat]
    rfl imagesGroupCat (by simp) imagesProp (by simp [imagesGroupCat]) rfl

/-- Synthetic Requester for the batch-error claim: requests for the group
carrying `prop=extracts` succeed with one `extract` round; every other
request (the `References` group's, with `prop=extlinks`) fails with a
transport error. -/
def failingBatchReq : Req := fun params =>
  if dictGet params "prop" = some (.str "extracts") then
    .ok { query := some [("pages", .obj [("1", [("extract", JVal.str "CatText")])])],
          cont := none }
  else
    .error .transport

/-- C4 as stated is false: batching `Content` and `References` for `pageCat`
plans two groups; the `Content` group's walk completes and its value is
stored on the page entity before the `References` group's walk raises the
transport error, so the error propagates while `_content` stays cached —
contradicting the claim that no property value from the batch is cached. -/
theorem batch_partial_cache_on_transport_error :
    getBatchProperties failingBatchReq [contentProp, referencesProp] pageCat [] =
      ([("_content", JVal.str "CatText")], some PyErr.transport) := rfl

/-- Group processing distributes over list append: once a prefix of groups
completes cleanly, the remaining groups continue from the prefix's cache. -/
theorem processGroups_append (req : Req) (page : Page) :
    ∀ (gs1 gs2 : List QueryGroup) (cache c1 : Cache),
      processGroups req page gs1 cache = (c1, none) →
      processGroups req page (gs1 ++ gs2) cache = processGroups req page gs2 c1 := by
  intro gs1
  induction gs1 with
  | nil =>
    intro gs2 cache c1 h
    simp only [processGroups, Prod.mk.injEq] at h
    rw [List.nil_append, h.1]
  | cons g rest ih =>
    intro gs2 cache c1 h
    simp only [processGroups, List.cons_append] at h ⊢
    cases hg : processGroup req page g cache with
    | mk cache2 oe =>
      rw [hg] at h
      cases oe with
      | none =>
        dsimp only at h ⊢
        exact ih gs2 cache2 c1 h
      | some e =>
        dsimp only at h
        simp at h

/-- C4 amended: a transport error in some group's continuation walk
propagates unmodified to the caller and aborts that group and all later
groups, but the property values of groups whose walks completed before the
failing group remain cached; only the failing and later groups contribute no
cached values. -/
theorem batch_transport_error_keeps_completed_groups (req : Req) (page : Page)
    (gs1 : List QueryGroup) (g : QueryGroup) (gs2 : List QueryGroup)
    (cache c1 : Cache) (e : PyErr)
    (h1 : processGroups req page gs1 cache = (c1, none))
    (h2 : continuedQuery req g.1 page "pages" = .error e) :
    processGroups req page (gs1 ++ g :: gs2) cache = (c1, some e) := by
  rw [processGroups_append req page gs1 (g :: gs2) cache c1 h1]
  simp only [processGroups, processGroup, h2]

/-- Witness for C4's amended claim at the concrete failing batch. -/
theorem batch_transport_error_keeps_completed_groups_witness :
    processGroups failingBatchReq pageCat
      [([("prop", PVal.str "extracts"), ("explaintext", PVal.str ""),
         ("titles", PVal.str "Cat")], [contentProp]),
       ([("prop", PVal.str "extlinks"), ("ellimit", PVal.str "max"),
         ("titles", PVal.str "Cat")], [referencesProp])]
      [] = ([("_content", JVal.str "CatText")], some PyErr.transport) :=
  batch_transport_error_keeps_completed_groups failingBatchReq pageCat
    [([("prop", PVal.str "extracts"), ("explaintext", PVal.str ""),
       ("titles", PVal.str "Cat")], [contentProp])]
    ([("prop", PVal.str "extlinks"), ("ellimit", PVal.str "max"),
      ("titles", PVal.str "Cat")], [referencesProp])
    [] [] [("_content", JVal.str "CatText")] PyErr.transport rfl rfl

end MWProps
